import Mathlib

/-!
Shallow embedding of the energy-data-explorer pipeline scripts
(`scripts/build_chart_data.py`, `scripts/fetch_form861.py`,
`scripts/fetch_rates.py`, `scripts/fetch_doe_outages.py`) and proofs about
the claims on their behaviour.

Modelling conventions:
* Python floats are modelled as exact rationals (`ℚ`); `round(x, n)` is
  modelled as round-half-to-even at `n` decimal digits (`pyRound`).
* JSON / API cell values that may be `null`, a number, or a string are
  modelled by `RawVal`; `float(x)` is `RawVal.coerce` (strings that parse
  carry their parsed value), Python truthiness is `RawVal.truthy`.
* Python `dict`s are modelled as association lists in insertion order,
  updated in place (`dictUpsert`), matching `dict` iteration semantics.
* Strings are compared and transformed ASCII-wise (`strLower`, `strUpper`,
  `strStrip`), which is faithful for the ASCII data these scripts handle.
-/

/-- Floor of a rational number, executable (`Int.fdiv` of numerator by
denominator; the denominator of `ℚ` is positive). -/
def ratFloor (q : ℚ) : ℤ := Int.fdiv q.num q.den

/-- Round a rational to the nearest integer, ties to even
(the rounding mode of Python `round`). -/
def roundHE (q : ℚ) : ℤ :=
  let f := ratFloor q
  let r := q - f
  if r < 1/2 then f else if 1/2 < r then f + 1 else if f % 2 = 0 then f else f + 1

/-- Python `round(q, n)`: round-half-even at `n` decimal digits. -/
def pyRound (q : ℚ) (n : ℕ) : ℚ := (roundHE (q * 10 ^ n) : ℚ) / 10 ^ n

theorem ratFloor_intCast (z : ℤ) : ratFloor (z : ℚ) = z := by
  simp [ratFloor, Rat.num_intCast, Rat.den_intCast, Int.fdiv_one]

theorem roundHE_intCast (z : ℤ) : roundHE (z : ℚ) = z := by
  simp [roundHE, ratFloor_intCast]

/-- `pyRound` is idempotent: a value already rounded to `n` digits is fixed
by a second rounding at `n` digits. -/
theorem pyRound_idem (q : ℚ) (n : ℕ) : pyRound (pyRound q n) n = pyRound q n := by
  have hpow : ((10 : ℚ) ^ n) ≠ 0 := by positivity
  unfold pyRound
  rw [div_mul_cancel₀ _ hpow, roundHE_intCast]

/-- ASCII lower-casing of a character (models Python `str.lower` on the
ASCII inputs handled by the scripts). -/
def lowerChar (c : Char) : Char :=
  if 65 ≤ c.toNat ∧ c.toNat ≤ 90 then Char.ofNat (c.toNat + 32) else c

/-- ASCII upper-casing of a character (models Python `str.upper`). -/
def upperChar (c : Char) : Char :=
  if 97 ≤ c.toNat ∧ c.toNat ≤ 122 then Char.ofNat (c.toNat - 32) else c

/-- Models Python `str.lower`. -/
def strLower (s : String) : String := ⟨s.data.map lowerChar⟩

/-- Models Python `str.upper`. -/
def strUpper (s : String) : String := ⟨s.data.map upperChar⟩

/-- ASCII whitespace, as stripped by Python `str.strip`. -/
def isSpaceChar (c : Char) : Bool :=
  c.toNat = 32 ∨ c.toNat = 9 ∨ c.toNat = 10 ∨ c.toNat = 11 ∨ c.toNat = 12 ∨ c.toNat = 13

/-- Models Python `str.strip` (whitespace removed from both ends). -/
def strStrip (s : String) : String :=
  ⟨((s.data.dropWhile isSpaceChar).reverse.dropWhile isSpaceChar).reverse⟩

/-- Models Python `s[:n]` on strings. -/
def strTake (s : String) (n : ℕ) : String := ⟨s.data.take n⟩

/-- Does the first character list start with the second? -/
def listStartsWith : List Char → List Char → Bool
  | _, [] => true
  | [], _ :: _ => false
  | a :: as, b :: bs => a == b && listStartsWith as bs

/-- Contiguous-substring test on character lists: `listContainsSub p s`
models Python `p in s` for strings (the empty pattern is contained in
everything). -/
def listContainsSub (p : List Char) : List Char → Bool
  | [] => p.isEmpty
  | c :: rest => listStartsWith (c :: rest) p || listContainsSub p rest

/-- Lexicographic strict comparison of character lists by code point:
models Python string `<`. -/
def charListLt : List Char → List Char → Bool
  | [], [] => false
  | [], _ :: _ => true
  | _ :: _, [] => false
  | a :: as, b :: bs =>
    if a.toNat < b.toNat then true
    else if b.toNat < a.toNat then false
    else charListLt as bs

/-- Python string `<`. -/
def strLt (a b : String) : Bool := charListLt a.data b.data

/-- Python string `<=` (total preorder induced by `strLt`). -/
def strLe (a b : String) : Bool := !(strLt b a)

/-- Split a character list at `'-'` separators: models Python
`s.split("-")` (empty pieces are kept). -/
def splitDash : List Char → List (List Char)
  | [] => [[]]
  | c :: rest =>
    if c == '-' then [] :: splitDash rest
    else
      match splitDash rest with
      | [] => [[c]]
      | p :: ps => (c :: p) :: ps

/-- Parse a non-empty all-digit character list as a natural number: the
(only) form Python `int(...)` meets on the reachable paths modelled here. -/
def digitsToNat (l : List Char) : Option ℕ :=
  if l ≠ [] ∧ l.all Char.isDigit then
    some (l.foldl (fun n c => 10 * n + (c.toNat - 48)) 0)
  else none

/-- A raw JSON / API cell value: `null`, a number, a string that `float()`
parses (carrying its parsed value), or a string that `float()` rejects. -/
inductive RawVal where
  | null : RawVal
  | num (q : ℚ) : RawVal
  | numStr (q : ℚ) : RawVal
  | badStr (s : String) : RawVal
deriving DecidableEq

/-- Python `float(x)` on a raw value: `none` models a raised
`ValueError`/`TypeError`. -/
def RawVal.coerce : RawVal → Option ℚ
  | .null => none
  | .num q => some q
  | .numStr q => some q
  | .badStr _ => none

/-- Python truthiness of a raw value (`None`, `0`, `0.0` and `""` are
falsy; a parseable numeric string is never empty, hence truthy). -/
def RawVal.truthy : RawVal → Bool
  | .null => false
  | .num q => q != 0
  | .numStr _ => true
  | .badStr s => s != ""

/-- Python-`dict` lookup on an insertion-ordered association list. -/
def dictFind {κ α : Type} [BEq κ] (m : List (κ × α)) (k : κ) : Option α :=
  (m.find? (fun kv => kv.1 == k)).map (fun kv => kv.2)

/-- Python-`dict` write `m[k] = v`: update in place if the key exists,
else append (insertion order preserved, later writes win). -/
def dictInsert {κ α : Type} [BEq κ] (m : List (κ × α)) (k : κ) (v : α) :
    List (κ × α) :=
  if (m.find? (fun kv => kv.1 == k)).isSome then
    m.map (fun kv => if kv.1 == k then (k, v) else kv)
  else m ++ [(k, v)]

/-- `defaultdict` access-and-mutate: apply `upd` to the stored value,
materialising `dflt` first when the key is absent. -/
def dictUpsert {κ α : Type} [BEq κ] (m : List (κ × α)) (k : κ) (dflt : α)
    (upd : α → α) : List (κ × α) :=
  match m with
  | [] => [(k, upd dflt)]
  | kv :: rest =>
    if kv.1 == k then (kv.1, upd kv.2) :: rest
    else kv :: dictUpsert rest k dflt upd

/-- The fixed `STATE_INFO` table of `build_chart_data.py`:
state code ↦ (full name, census region); 51 entries. -/
def stateInfo : List (String × String × String) := [
  ("AL", "Alabama", "South"), ("AK", "Alaska", "West"), ("AZ", "Arizona", "West"),
  ("AR", "Arkansas", "South"), ("CA", "California", "West"), ("CO", "Colorado", "West"),
  ("CT", "Connecticut", "Northeast"), ("DE", "Delaware", "South"),
  ("DC", "District of Columbia", "South"), ("FL", "Florida", "South"),
  ("GA", "Georgia", "South"), ("HI", "Hawaii", "West"), ("ID", "Idaho", "West"),
  ("IL", "Illinois", "Midwest"), ("IN", "Indiana", "Midwest"), ("IA", "Iowa", "Midwest"),
  ("KS", "Kansas", "Midwest"), ("KY", "Kentucky", "South"), ("LA", "Louisiana", "South"),
  ("ME", "Maine", "Northeast"), ("MD", "Maryland", "South"),
  ("MA", "Massachusetts", "Northeast"), ("MI", "Michigan", "Midwest"),
  ("MN", "Minnesota", "Midwest"), ("MS", "Mississippi", "South"),
  ("MO", "Missouri", "Midwest"), ("MT", "Montana", "West"), ("NE", "Nebraska", "Midwest"),
  ("NV", "Nevada", "West"), ("NH", "New Hampshire", "Northeast"),
  ("NJ", "New Jersey", "Northeast"), ("NM", "New Mexico", "West"),
  ("NY", "New York", "Northeast"), ("NC", "North Carolina", "South"),
  ("ND", "North Dakota", "Midwest"), ("OH", "Ohio", "Midwest"),
  ("OK", "Oklahoma", "South"), ("OR", "Oregon", "West"), ("PA", "Pennsylvania", "Northeast"),
  ("RI", "Rhode Island", "Northeast"), ("SC", "South Carolina", "South"),
  ("SD", "South Dakota", "Midwest"), ("TN", "Tennessee", "South"), ("TX", "Texas", "South"),
  ("UT", "Utah", "West"), ("VT", "Vermont", "Northeast"), ("VA", "Virginia", "South"),
  ("WA", "Washington", "West"), ("WV", "West Virginia", "South"),
  ("WI", "Wisconsin", "Midwest"), ("WY", "Wyoming", "West")]

/-- One record of a `generation_<year>.json` fuel-type list. -/
structure GenRecord where
  location : String
  generation : RawVal
deriving DecidableEq

/-- The per-state accumulator dict built by `process_generation_data`
(initialised with every fuel field at `0`). -/
structure StateGen where
  total : ℚ := 0
  wind : ℚ := 0
  solar : ℚ := 0
  gas : ℚ := 0
  coal : ℚ := 0
  nuclear : ℚ := 0
  hydro : ℚ := 0
  other : ℚ := 0
deriving DecidableEq

/-- The `FUEL_MAPPING` table of `process_generation_data`, in source
(iteration) order. -/
def fuelMapping : List (String × String) :=
  [("ALL", "total"), ("WND", "wind"), ("SUN", "solar"), ("NG", "gas"),
   ("COW", "coal"), ("NUC", "nuclear"), ("HYC", "hydro"), ("OTH", "other")]

/-- `state_gen[location][field_name] = generation` for a named fuel field. -/
def setGenField (g : StateGen) (field : String) (v : ℚ) : StateGen :=
  if field == "total" then { g with total := v }
  else if field == "wind" then { g with wind := v }
  else if field == "solar" then { g with solar := v }
  else if field == "gas" then { g with gas := v }
  else if field == "coal" then { g with coal := v }
  else if field == "nuclear" then { g with nuclear := v }
  else if field == "hydro" then { g with hydro := v }
  else if field == "other" then { g with other := v }
  else g

/-- Processing of one generation record inside `process_generation_data`:
skip non-state locations and records whose generation value is `null` or
fails `float()`; otherwise overwrite the fuel field of the state's entry. -/
def stepGenRecord (m : List (String × StateGen)) (field : String)
    (r : GenRecord) : List (String × StateGen) :=
  if r.location.data.length == 2 && (dictFind stateInfo r.location).isSome then
    match r.generation.coerce with
    | some v => dictUpsert m r.location {} (fun g => setGenField g field v)
    | none => m
  else m

/-- The accumulation loops of `process_generation_data` (fuel types in
`FUEL_MAPPING` order, records in list order). -/
def buildStateGen (gd : List (String × List GenRecord)) :
    List (String × StateGen) :=
  fuelMapping.foldl
    (fun m ff =>
      match dictFind gd ff.1 with
      | none => m
      | some recs => recs.foldl (fun acc r => stepGenRecord acc ff.2 r) m)
    []

/-- A state's generation entry after the penetration-percentage pass. -/
structure StateGenOut where
  total : ℚ
  wind : ℚ
  solar : ℚ
  gas : ℚ
  coal : ℚ
  nuclear : ℚ
  hydro : ℚ
  other : ℚ
  windPenetration : ℚ
  solarPenetration : ℚ
  vrePenetration : ℚ
deriving DecidableEq

/-- The penetration-percentage pass of `process_generation_data`. -/
def finalizeGen (g : StateGen) : StateGenOut :=
  if g.total > 0 then
    { total := g.total, wind := g.wind, solar := g.solar, gas := g.gas,
      coal := g.coal, nuclear := g.nuclear, hydro := g.hydro, other := g.other,
      windPenetration := pyRound (g.wind / g.total * 100) 2,
      solarPenetration := pyRound (g.solar / g.total * 100) 2,
      vrePenetration := pyRound ((g.wind + g.solar) / g.total * 100) 2 }
  else
    { total := g.total, wind := g.wind, solar := g.solar, gas := g.gas,
      coal := g.coal, nuclear := g.nuclear, hydro := g.hydro, other := g.other,
      windPenetration := 0, solarPenetration := 0, vrePenetration := 0 }

/-- `process_generation_data` of `build_chart_data.py`. -/
def processGenerationData (gd : List (String × List GenRecord)) :
    List (String × StateGenOut) :=
  (buildStateGen gd).map (fun kv => (kv.1, finalizeGen kv.2))

/-- One record of a `reliability_<year>.json` file (fields may be absent
or `null`, hence `Option`). -/
structure RelRec where
  state : String
  saidi : Option ℚ
  saifi : Option ℚ
deriving DecidableEq

/-- One record of a `rates_<year>.json` file as read back by
`build_chart_data.py` (`state`, `sector`, `price`). -/
structure RateRec where
  state : String
  sector : String
  price : ℚ
deriving DecidableEq

/-- `reliability_by_state = {r["state"]: r for r in reliability_data}`:
dict comprehension, later records with the same state overwrite. -/
def relDict (rel : List RelRec) : List (String × RelRec) :=
  rel.foldl (fun m r => dictInsert m r.state r) []

/-- `rates_by_state[state][sector] = r["price"]` over all rate records. -/
def ratesDict (rates : List RateRec) : List (String × List (String × ℚ)) :=
  rates.foldl
    (fun m r => dictUpsert m r.state [] (fun inner => dictInsert inner r.sector r.price))
    []

/-- One combined output point of `build_chart_json`. -/
structure ChartPoint where
  state : String
  stateCode : String
  year : ℤ
  saidi : Option ℚ
  saifi : Option ℚ
  vrePenetration : ℚ
  windPenetration : ℚ
  solarPenetration : ℚ
  totalGeneration : ℚ
  customerCount : ℚ
  region : String
  rateResidential : Option ℚ
  rateCommercial : Option ℚ
  rateIndustrial : Option ℚ
  rateAll : Option ℚ
  generationWind : ℚ
  generationSolar : ℚ
  generationGas : ℚ
  generationCoal : ℚ
  generationNuclear : ℚ
  generationHydro : ℚ
  generationOther : ℚ
deriving DecidableEq

/-- `rates_by_state` as seen by the combine loop: the empty dict when the
rates file is missing (`rate_data is None`) — an empty rate list is falsy
in Python and builds the empty dict as well, so both cases meet in
`ratesDict`. -/
def ratesOf (rateData : Option (List RateRec)) : List (String × List (String × ℚ)) :=
  match rateData with
  | none => []
  | some rd => ratesDict rd

/-- The body of the per-state combine loop of `build_chart_json`
(`build_chart_data.py` lines 270–317): resolve name/region from
`STATE_INFO`, join the reliability and rate lookups, and emit a point
when SAIDI or any rate datum is present for the state. -/
def combineOne (relBy : List (String × RelRec))
    (ratesBy : List (String × List (String × ℚ))) (year : ℤ)
    (kv : String × StateGenOut) : Option ChartPoint :=
  match dictFind stateInfo kv.1 with
  | none => none
  | some nr =>
    if (dictFind relBy kv.1).bind RelRec.saidi == none
        && ((dictFind ratesBy kv.1).getD []).isEmpty then none
    else some {
      state := nr.1, stateCode := kv.1, year := year,
      saidi := (dictFind relBy kv.1).bind RelRec.saidi,
      saifi := (dictFind relBy kv.1).bind RelRec.saifi,
      vrePenetration := kv.2.vrePenetration,
      windPenetration := kv.2.windPenetration,
      solarPenetration := kv.2.solarPenetration,
      totalGeneration := pyRound kv.2.total 0,
      customerCount := 0, region := nr.2,
      rateResidential := dictFind ((dictFind ratesBy kv.1).getD []) "RES",
      rateCommercial := dictFind ((dictFind ratesBy kv.1).getD []) "COM",
      rateIndustrial := dictFind ((dictFind ratesBy kv.1).getD []) "IND",
      rateAll := dictFind ((dictFind ratesBy kv.1).getD []) "ALL",
      generationWind := pyRound kv.2.wind 0,
      generationSolar := pyRound kv.2.solar 0,
      generationGas := pyRound kv.2.gas 0,
      generationCoal := pyRound kv.2.coal 0,
      generationNuclear := pyRound kv.2.nuclear 0,
      generationHydro := pyRound kv.2.hydro 0,
      generationOther := pyRound kv.2.other 0 }

/-- The per-year combine stage of `build_chart_json`
(`build_chart_data.py` lines 250–317): iterate the processed generation
states and apply the combine-loop body to each. -/
def combinePointsForYear (gd : List (String × List GenRecord))
    (rel : List RelRec) (rateData : Option (List RateRec)) (year : ℤ) :
    List ChartPoint :=
  (processGenerationData gd).filterMap
    (combineOne (relDict rel) (ratesOf rateData) year)

/-- The validation filter of `load_reliability_data`
(`build_chart_data.py` lines 96–105): keep exactly the records whose
`saidi` is non-null and strictly between `0` and `10000`. -/
def loadReliabilityFilter (records : List RelRec) : List RelRec :=
  records.filter (fun r =>
    match r.saidi with
    | some v => decide (0 < v) && decide (v < 10000)
    | none => false)

/-- Replace `'-'` and `'_'` by a space (`col.replace('-', ' ').replace('_', ' ')`
in `find_column` of `fetch_form861.py`). -/
def dashUnderToSpace (c : Char) : Char :=
  if c == '-' || c == '_' then ' ' else c

/-- The per-column test of `find_column`: the pattern (taken literally) is
searched as a substring of the lowered header key with `-`/`_` replaced by
spaces. -/
def patMatches (pattern colKey : String) : Bool :=
  listContainsSub pattern.data (colKey.data.map dashUnderToSpace)

/-- `cols_lower = {c.lower(): c for c in df.columns}`: a Python dict
comprehension — keys in first-occurrence order, later originals with the
same lowered form overwrite the stored value. -/
def colsLower (headers : List String) : List (String × String) :=
  headers.foldl (fun m c => dictInsert m (strLower c) c) []

/-- `find_column` of `fetch_form861.py` (lines 159–166): try the patterns
in order; for each pattern scan `cols_lower` keys in dict order and return
the stored original header on the first hit. -/
def findColumn (headers : List String) : List String → Option String
  | [] => none
  | p :: ps =>
    match (colsLower headers).find? (fun kv => patMatches p kv.1) with
    | some kv => some kv.2
    | none => findColumn headers ps

/-- Modelled from the spec's words, for comparison with `findColumn`
(refinement check): patterns in priority order, and within a pattern the
first matching header *in source order* is returned. -/
def findColumnSpec (headers : List String) : List String → Option String
  | [] => none
  | p :: ps =>
    match headers.find? (fun h => patMatches p (strLower h)) with
    | some h => some h
    | none => findColumnSpec headers ps

/-- The `VALID_STATES` set of `fetch_form861.py` / `fetch_rates.py`
(50 states plus DC). -/
def validStates : List String :=
  ["AL", "AK", "AZ", "AR", "CA", "CO", "CT", "DE", "FL", "GA",
   "HI", "ID", "IL", "IN", "IA", "KS", "KY", "LA", "ME", "MD",
   "MA", "MI", "MN", "MS", "MO", "MT", "NE", "NV", "NH", "NJ",
   "NM", "NY", "NC", "ND", "OH", "OK", "OR", "PA", "RI", "SC",
   "SD", "TN", "TX", "UT", "VT", "VA", "WA", "WV", "WI", "WY", "DC"]

/-- A utility-level row of `extract_utility_reliability` after the
`pd.to_numeric(..., errors="coerce")` conversions: numeric cells are
either a value or NaN (`none`); `state` is already stripped/uppercased. -/
structure URecRaw where
  utility_id : Option ℤ
  state : String
  saidi : Option ℚ
  saifi : Option ℚ
  customers : Option ℚ
  saidi_with_med : Option ℚ
  saifi_with_med : Option ℚ
deriving DecidableEq

/-- A utility row surviving the filters (non-null `utility_id` and
`saidi`). -/
structure URec where
  utility_id : ℤ
  state : String
  saidi : ℚ
  saifi : Option ℚ
  customers : Option ℚ
  saidi_with_med : Option ℚ
  saifi_with_med : Option ℚ
deriving DecidableEq

/-- The final filters of `extract_utility_reliability`
(`fetch_form861.py` lines 246–251): keep rows whose state is in
`VALID_STATES`, then drop rows with missing `utility_id` or `saidi`. -/
def extractFilter (rows : List URecRaw) : List URec :=
  rows.filterMap (fun r =>
    if validStates.contains r.state then
      match r.utility_id, r.saidi with
      | some i, some v =>
        some { utility_id := i, state := r.state, saidi := v, saifi := r.saifi,
               customers := r.customers, saidi_with_med := r.saidi_with_med,
               saifi_with_med := r.saifi_with_med }
      | _, _ => none
    else none)

/-- Mean of a list of rationals (pandas `mean` over a non-NaN column). -/
def qmean (l : List ℚ) : ℚ := l.sum / l.length

/-- pandas `mean` over a column with NaNs: NaNs are skipped; the mean of
an all-NaN column is NaN (`none`). -/
def optMean (l : List (Option ℚ)) : Option ℚ :=
  let vs := l.filterMap id
  if vs.isEmpty then none else some (vs.sum / vs.length)

/-- pandas `sum` over a column with NaNs: NaNs are skipped, empty sums
are `0`. -/
def optSum (l : List (Option ℚ)) : ℚ := (l.filterMap id).sum

/-- First-occurrence deduplication (structural, with a `seen`
accumulator). -/
def dedupAux (seen : List String) : List String → List String
  | [] => []
  | x :: xs => if seen.contains x then dedupAux seen xs else x :: dedupAux (x :: seen) xs

/-- Distinct elements of a list, first occurrences kept. -/
def dedupKeep (l : List String) : List String := dedupAux [] l

/-- pandas `df.groupby("state")`: the distinct state keys sorted
ascending, each paired with the rows carrying it (in row order).
`List.insertionSort` is a stable sort, hence produces the same output as
pandas' sorted grouping. -/
def groupByState (df : List URec) : List (String × List URec) :=
  (List.insertionSort (fun a b => strLe a b = true)
      (dedupKeep (df.map URec.state))).map
    (fun s => (s, df.filter (fun r => r.state == s)))

/-- One state-level aggregated record. -/
structure StateAgg where
  state : String
  saidi : ℚ
  saifi : Option ℚ
  saidi_with_med : Option ℚ
  saifi_with_med : Option ℚ
  utility_count : ℕ
  total_customers : ℚ
deriving DecidableEq

/-- `aggregate_to_state_level` of `fetch_form861.py` (lines 336–375):
group the utility rows by state, average `saidi`/`saifi` and the with-MED
columns (all columns are created by `extract_utility_reliability`, so the
aggregation dict always contains them), count utilities, sum customers,
and round the means (1 decimal for SAIDI, 2 for SAIFI). -/
def aggregateToStateLevel (df : List URec) : List StateAgg :=
  (groupByState df).map (fun sg =>
    { state := sg.1,
      saidi := pyRound (qmean (sg.2.map URec.saidi)) 1,
      saifi := (optMean (sg.2.map URec.saifi)).map (fun v => pyRound v 2),
      saidi_with_med := (optMean (sg.2.map URec.saidi_with_med)).map (fun v => pyRound v 1),
      saifi_with_med := (optMean (sg.2.map URec.saifi_with_med)).map (fun v => pyRound v 2),
      utility_count := sg.2.length,
      total_customers := optSum (sg.2.map URec.customers) })

/-- A raw record of the EIA retail-sales API as consumed by
`process_rate_data` of `fetch_rates.py` (`record.get(...)` of an absent
key yields `null`/`""`, both covered by `RawVal`). `stateid` defaults to
`""` when absent. -/
structure RawRateRec where
  stateid : String
  price : RawVal
  revenue : RawVal
  sales : RawVal
deriving DecidableEq

/-- One processed rate record emitted by `process_rate_data`. -/
structure ProcRate where
  state : String
  sector : String
  sectorName : String
  price : ℚ
  revenue : Option ℚ
  sales : Option ℚ
  year : ℤ
deriving DecidableEq

/-- The `SECTORS` table of `fetch_rates.py`. -/
def sectorsTable : List (String × String) :=
  [("RES", "residential"), ("COM", "commercial"), ("IND", "industrial"), ("ALL", "all")]

/-- `round(x, 0) if x else None` applied to an already-coerced
float-or-None value (`0.0` is falsy). -/
def roundIfTruthy (v : Option ℚ) : Option ℚ :=
  match v with
  | some q => if q != 0 then some (pyRound q 0) else none
  | none => none

/-- Processing of a single record inside `process_rate_data`
(`fetch_rates.py` lines 101–141): skip unless `stateid` is a valid state
code, the price coerces with `float()` and lies in `(0, 100]`; coerce
`revenue`/`sales` inside one `try` block, so a failure on either leaves
both `None`; the record itself is still emitted. -/
def processOneRate (sector : String) (year : ℤ) (r : RawRateRec) : Option ProcRate :=
  if !(validStates.contains r.stateid) then none
  else
    match r.price.coerce with
    | none => none
    | some p =>
      if p ≤ 0 ∨ 100 < p then none
      else
        let rv : Option (Option ℚ) :=
          if r.revenue.truthy then r.revenue.coerce.map some else some none
        let sv : Option (Option ℚ) :=
          if r.sales.truthy then r.sales.coerce.map some else some none
        let pair : Option ℚ × Option ℚ :=
          match rv, sv with
          | some a, some b => (a, b)
          | _, _ => (none, none)
        some { state := r.stateid, sector := sector,
               sectorName := (dictFind sectorsTable sector).getD sector,
               price := pyRound p 2,
               revenue := roundIfTruthy pair.1,
               sales := roundIfTruthy pair.2,
               year := year }

/-- `process_rate_data` of `fetch_rates.py` (lines 84–143). -/
def processRateData (records : List RawRateRec) (sector : String) (year : ℤ) :
    List ProcRate :=
  records.filterMap (processOneRate sector year)

/-- One parsed DOE-417 event as consumed by `aggregate_to_state_year` of
`fetch_doe_outages.py`. -/
structure OutageEvent where
  year : ℤ
  causeCategory : String
  customersAffected : ℤ
  durationHours : ℚ
  states : List String
deriving DecidableEq

/-- The running per-(state, year) accumulator of `aggregate_to_state_year`
(the `defaultdict` default has every counter at `0`). -/
structure SYData where
  totalEvents : ℕ := 0
  weatherEvents : ℕ := 0
  equipmentEvents : ℕ := 0
  demandEvents : ℕ := 0
  otherEvents : ℕ := 0
  totalCustomersAffected : ℤ := 0
  maxEventCustomers : ℤ := 0
  totalDurationHours : ℚ := 0
deriving DecidableEq

/-- The mutation applied to a partition's accumulator for one event
occurrence (`fetch_doe_outages.py` lines 204–217). -/
def syUpdate (cat : String) (customers : ℤ) (duration : ℚ) (d : SYData) : SYData :=
  { totalEvents := d.totalEvents + 1,
    weatherEvents := d.weatherEvents + (if cat == "weather" then 1 else 0),
    equipmentEvents := d.equipmentEvents + (if cat == "equipment" then 1 else 0),
    demandEvents := d.demandEvents + (if cat == "demand" then 1 else 0),
    otherEvents := d.otherEvents +
      (if cat != "weather" && cat != "equipment" && cat != "demand" then 1 else 0),
    totalCustomersAffected := d.totalCustomersAffected + customers,
    maxEventCustomers := max d.maxEventCustomers customers,
    totalDurationHours := d.totalDurationHours + duration }

/-- `state.strip()[:2].upper() if state else "US"`. -/
def cleanStateCode (s : String) : String :=
  if s == "" then "US" else strUpper (strTake (strStrip s) 2)

/-- `states = event.get("states", []); if not states: states = ["US"]`. -/
def eventStates (e : OutageEvent) : List String :=
  if e.states.isEmpty then ["US"] else e.states

/-- Processing of one state entry of one event: skip unless the cleaned
code has exactly 2 characters, else mutate the partition keyed by
(code, year). The Python key is the string `f"{state_code}-{year}"`;
since only 2-character codes are stored, that string determines the
(code, year) pair uniquely, so the dict is modelled with the pair as key. -/
def stepEventState (e : OutageEvent) (m : List ((String × ℤ) × SYData))
    (s : String) : List ((String × ℤ) × SYData) :=
  let sc := cleanStateCode s
  if sc.data.length != 2 then m
  else dictUpsert m (sc, e.year) {}
    (syUpdate e.causeCategory e.customersAffected e.durationHours)

/-- The accumulation loop of `aggregate_to_state_year`
(`fetch_doe_outages.py` lines 184–217). -/
def processOutageEvents (events : List OutageEvent) :
    List ((String × ℤ) × SYData) :=
  events.foldl
    (fun m e => (eventStates e).foldl (fun acc s => stepEventState e acc s) m) []

/-- `max(cause_counts, key=cause_counts.get)` over the insertion-ordered
dict `{weather, equipment, demand, other}`: Python `max` keeps the first
maximal key, so a later key wins only with a strictly greater count. -/
def primaryCauseOf (w e d o : ℕ) : String :=
  let best1 := if e > w then ("equipment", e) else ("weather", w)
  let best2 := if d > best1.2 then ("demand", d) else best1
  let best3 := if o > best2.2 then ("other", o) else best2
  best3.1

/-- One state-year summary record emitted by `aggregate_to_state_year`. -/
structure OutRec where
  stateCode : String
  year : ℤ
  totalEvents : ℕ
  weatherEvents : ℕ
  equipmentEvents : ℕ
  demandEvents : ℕ
  otherEvents : ℕ
  primaryCause : String
  totalCustomersAffected : ℤ
  maxEventCustomers : ℤ
  avgDurationHours : ℚ
deriving DecidableEq

/-- Building one output record from a partition
(`fetch_doe_outages.py` lines 226–246). -/
def mkOutRec (sc : String) (y : ℤ) (d : SYData) : OutRec :=
  { stateCode := sc, year := y,
    totalEvents := d.totalEvents, weatherEvents := d.weatherEvents,
    equipmentEvents := d.equipmentEvents, demandEvents := d.demandEvents,
    otherEvents := d.otherEvents,
    primaryCause := primaryCauseOf d.weatherEvents d.equipmentEvents
      d.demandEvents d.otherEvents,
    totalCustomersAffected := d.totalCustomersAffected,
    maxEventCustomers := d.maxEventCustomers,
    avgDurationHours := pyRound (d.totalDurationHours / (max d.totalEvents 1 : ℕ)) 1 }

/-- `state_code, year_str = key.split("-"); year = int(year_str)` on the
key `f"{state_code}-{year}"` of a stored partition. The stored code has
exactly 2 characters, so the split yields exactly two parts iff the code
is dash-free and the year is non-negative (a negative year puts a second
`-` into the key); in that case the parts are the code and the year's
digits, and `int` restores the year. A split with ≠ 2 parts makes the
tuple unpacking raise `ValueError` (modelled by `none`). -/
def convertEntry (kv : (String × ℤ) × SYData) : Option OutRec :=
  if ('-' ∈ kv.1.1.data) ∨ kv.1.2 < 0 then none
  else some (mkOutRec kv.1.1 kv.1.2 kv.2)

/-- Convert every partition, propagating a `ValueError` (`none`) from any
entry — Python aborts the whole function on the first bad key. -/
def convertAll : List ((String × ℤ) × SYData) → Option (List OutRec)
  | [] => some []
  | kv :: rest =>
    match convertEntry kv with
    | none => none
    | some r => (convertAll rest).map (fun l => r :: l)

/-- The sort key `lambda x: (x["year"], x["stateCode"])` as a boolean
total preorder. -/
def outKeyLe (a b : OutRec) : Bool :=
  decide (a.year < b.year) || (decide (a.year = b.year) && strLe a.stateCode b.stateCode)

/-- `aggregate_to_state_year` of `fetch_doe_outages.py` (lines 171–248):
accumulate the events, convert each partition (a bad key raises, giving
`none`), and sort by `(year, stateCode)` ascending. Python `sorted` is a
stable sort, as is `List.insertionSort`, so both produce the same list. -/
def aggregateToStateYear (events : List OutageEvent) : Option (List OutRec) :=
  (convertAll (processOutageEvents events)).map
    (fun l => List.insertionSort (fun a b => outKeyLe a b = true) l)


/-! Concrete fixtures used by witnesses and counterexamples. -/

/-- Generation data for one state: total 100, wind 30, solar 20. -/
def gdCA : List (String × List GenRecord) :=
  [("ALL", [⟨"CA", RawVal.num 100⟩]),
   ("WND", [⟨"CA", RawVal.num 30⟩]),
   ("SUN", [⟨"CA", RawVal.num 20⟩])]

/-- The processed generation entry `process_generation_data` builds from
`gdCA`. -/
def gOutCA : StateGenOut := ⟨100, 30, 20, 0, 0, 0, 0, 0, 30, 20, 50⟩

/-- A one-state weather event. -/
def evWeatherCA : OutageEvent := ⟨2020, "weather", 5, 2, ["CA"]⟩

/-- A one-state non-weather event in an earlier year. -/
def evOtherTX : OutageEvent := ⟨2019, "other", 3, 4, ["TX"]⟩

/-- A national event (empty state list). -/
def evUS : OutageEvent := ⟨2020, "equipment", 10, 1, []⟩

/-- A weather event whose duration `2.25` is not representable at one
decimal. -/
def evQuarter : OutageEvent := ⟨2020, "weather", 500, 9/4, ["CA"]⟩

/-- The state-year summary of `[evWeatherCA]`. -/
def outWeatherCA : OutRec := ⟨"CA", 2020, 1, 1, 0, 0, 0, "weather", 5, 5, 2⟩

/-- The state-year summary of `[evOtherTX]`. -/
def outOtherTX : OutRec := ⟨"TX", 2019, 1, 0, 0, 0, 1, "other", 3, 3, 4⟩

/-- The state-year summary of `[evUS]` (note the `"US"` state code). -/
def outUS : OutRec := ⟨"US", 2020, 1, 0, 1, 0, 0, "equipment", 10, 10, 1⟩

/-- The state-year summary of `[evQuarter]` (note the rounded average). -/
def outQuarter : OutRec := ⟨"CA", 2020, 1, 1, 0, 0, 0, "weather", 500, 500, 22/10⟩

/-- A single utility row. -/
def uCA : URec := ⟨1, "CA", 100, none, none, none, none⟩

/-- A single utility row whose SAIDI `3.14` has two decimals. -/
def uPi : URec := ⟨1, "CA", 314/100, some (5/4), some 10, none, none⟩

/-- A reliability record with SAIDI `100`. -/
def relCA : RelRec := ⟨"CA", some 100, none⟩

/-- A reliability record with SAIDI `3.14`. -/
def relPi : RelRec := ⟨"CA", some (314/100), none⟩

/-- One rate record (residential California). -/
def rateCA : RateRec := ⟨"CA", "RES", 25/2⟩

/-- A raw API rate record with a parseable price string and a revenue
string `float()` rejects. -/
def rrOK : RawRateRec := ⟨"CA", RawVal.numStr (1234/100), RawVal.badStr "x", RawVal.num 7⟩

/-- The processed record `process_rate_data` emits for `rrOK`. -/
def outRR : ProcRate := ⟨"CA", "RES", "residential", 1234/100, none, none, 2020⟩

/-- The state aggregate of the single-utility list `[uPi]`. -/
def sAggPi : StateAgg := ⟨"CA", 31/10, some (5/4), none, none, 1, 10⟩

/-- The combined chart point built from `gdCA` and `[relCA]` (no rates). -/
def pointCA : ChartPoint :=
  ⟨"California", "CA", 2020, some 100, none, 50, 30, 20, 100, 0, "West",
   none, none, none, none, 30, 20, 0, 0, 0, 0, 0⟩

/-- A raw utility row that survives `extract_utility_reliability`'s
filters as `uCA`. -/
def rawU : URecRaw := ⟨some 1, "CA", some 100, none, none, none, none⟩

set_option maxRecDepth 100000

theorem charListLt_asymm :
    ∀ (a b : List Char), charListLt a b = true → charListLt b a = false := by
  intro a
  induction a with
  | nil => intro b h; cases b <;> simp_all [charListLt]
  | cons x xs ih =>
    intro b h
    cases b with
    | nil => simp [charListLt] at h
    | cons y ys =>
      by_cases h1 : x.toNat < y.toNat
      · have h2 : ¬ y.toNat < x.toNat := by omega
        simp [charListLt, h1, h2]
      · by_cases h2 : y.toNat < x.toNat
        · simp [charListLt, h1, h2] at h
        · simp [charListLt, h1, h2] at h ⊢
          exact ih ys h

theorem charListLt_neg_trans :
    ∀ (a b c : List Char), charListLt a b = false → charListLt b c = false →
      charListLt a c = false := by
  intro a
  induction a with
  | nil =>
    intro b c hab hbc
    cases b with
    | nil => exact hbc
    | cons y ys => simp [charListLt] at hab
  | cons x xs ih =>
    intro b c hab hbc
    cases b with
    | nil =>
      cases c with
      | nil => simp [charListLt]
      | cons z zs => simp [charListLt] at hbc
    | cons y ys =>
      cases c with
      | nil => simp [charListLt]
      | cons z zs =>
        by_cases hxy : x.toNat < y.toNat
        · simp [charListLt, hxy] at hab
        · by_cases hyz : y.toNat < z.toNat
          · simp [charListLt, hyz] at hbc
          · by_cases hxz : x.toNat < z.toNat
            · omega
            · by_cases hzx : z.toNat < x.toNat
              · simp [charListLt, hxz, hzx]
              · have hyx : ¬ y.toNat < x.toNat := by omega
                have hzy : ¬ z.toNat < y.toNat := by omega
                simp [charListLt, hxy, hyx] at hab
                simp [charListLt, hyz, hzy] at hbc
                simp [charListLt, hxz, hzx]
                exact ih ys zs hab hbc

theorem strLe_total (a b : String) : strLe a b = true ∨ strLe b a = true := by
  by_cases h : charListLt b.data a.data = true
  · right
    simp [strLe, strLt, charListLt_asymm _ _ h]
  · left
    simp [strLe, strLt]
    simpa using h

theorem strLe_trans {a b c : String} (hab : strLe a b = true)
    (hbc : strLe b c = true) : strLe a c = true := by
  simp only [strLe, strLt, Bool.not_eq_true'] at hab hbc ⊢
  exact charListLt_neg_trans _ _ _ hbc hab

theorem outKeyLe_iff (a b : OutRec) :
    outKeyLe a b = true ↔
      (a.year < b.year ∨ (a.year = b.year ∧ strLe a.stateCode b.stateCode = true)) := by
  simp [outKeyLe]

instance : IsTotal OutRec (fun a b => outKeyLe a b = true) := by
  constructor
  intro a b
  rw [outKeyLe_iff, outKeyLe_iff]
  rcases lt_trichotomy a.year b.year with h | h | h
  · exact Or.inl (Or.inl h)
  · rcases strLe_total a.stateCode b.stateCode with hs | hs
    · exact Or.inl (Or.inr ⟨h, hs⟩)
    · exact Or.inr (Or.inr ⟨h.symm, hs⟩)
  · exact Or.inr (Or.inl h)

instance : IsTrans OutRec (fun a b => outKeyLe a b = true) := by
  constructor
  intro a b c hab hbc
  rw [outKeyLe_iff] at hab hbc ⊢
  rcases hab with h1 | ⟨h1, hs1⟩ <;> rcases hbc with h2 | ⟨h2, hs2⟩
  · exact Or.inl (h1.trans h2)
  · exact Or.inl (h2 ▸ h1)
  · exact Or.inl (h1 ▸ h2)
  · exact Or.inr ⟨h1.trans h2, strLe_trans hs1 hs2⟩


theorem dictUpsert_forall {κ α : Type} [BEq κ] [LawfulBEq κ] (P : κ × α → Prop)
    (m : List (κ × α)) (k : κ) (dflt : α) (upd : α → α)
    (hupd : ∀ k' v, (k' == k) = true → P (k', upd v)) :
    (∀ kv ∈ m, P kv) → ∀ kv ∈ dictUpsert m k dflt upd, P kv := by
  induction m with
  | nil =>
    intro _ kv hkv
    simp only [dictUpsert, List.mem_singleton] at hkv
    subst hkv
    exact hupd k dflt (by simp)
  | cons hd tl ih =>
    intro hm kv hkv
    simp only [dictUpsert] at hkv
    by_cases hk : (hd.1 == k) = true
    · rw [if_pos hk] at hkv
      rcases List.mem_cons.mp hkv with h | h
      · subst h
        exact hupd hd.1 hd.2 hk
      · exact hm kv (List.mem_cons_of_mem _ h)
    · rw [if_neg hk] at hkv
      rcases List.mem_cons.mp hkv with h | h
      · have hhd := hm hd (List.mem_cons_self _ _)
        rwa [h]
      · exact ih (fun kv2 h2 => hm kv2 (List.mem_cons_of_mem _ h2)) kv h

theorem convertAll_mem {m : List ((String × ℤ) × SYData)} {l : List OutRec}
    (hconv : convertAll m = some l) :
    ∀ r ∈ l, ∃ kv ∈ m, convertEntry kv = some r := by
  induction m generalizing l with
  | nil =>
    simp [convertAll] at hconv
    subst hconv
    intro r hr
    simp at hr
  | cons hd tl ih =>
    rw [convertAll] at hconv
    cases hce : convertEntry hd with
    | none => rw [hce] at hconv; simp at hconv
    | some r0 =>
      rw [hce] at hconv
      cases hca : convertAll tl with
      | none => rw [hca] at hconv; simp at hconv
      | some l0 =>
        rw [hca] at hconv
        simp at hconv
        subst hconv
        intro r hr
        rcases List.mem_cons.mp hr with h | h
        · exact ⟨hd, by simp, h ▸ hce⟩
        · obtain ⟨kv, hkv, hc⟩ := ih hca r h
          exact ⟨kv, by simp [hkv], hc⟩

/-- Every partition stored by the outage accumulation loop satisfies `P`,
provided `P` holds of any entry just written by `syUpdate` under a
length-2 cleaned state code. -/
theorem processOutageEvents_forall (P : (String × ℤ) × SYData → Prop)
    (hP : ∀ (e : OutageEvent) (s : String),
      (cleanStateCode s).data.length = 2 → ∀ d,
      P ((cleanStateCode s, e.year),
         syUpdate e.causeCategory e.customersAffected e.durationHours d))
    (events : List OutageEvent) :
    ∀ kv ∈ processOutageEvents events, P kv := by
  have hstep : ∀ (e : OutageEvent) (m : List ((String × ℤ) × SYData)) (s : String),
      (∀ kv ∈ m, P kv) → ∀ kv ∈ stepEventState e m s, P kv := by
    intro e m s hm kv hkv
    rw [stepEventState] at hkv
    by_cases hlen : (((cleanStateCode s).data.length : ℕ) != 2) = true
    · simp only [hlen, if_pos] at hkv
      exact hm kv hkv
    · simp only [hlen, if_neg, Bool.false_eq_true, not_false_iff] at hkv
      have hlen2 : (cleanStateCode s).data.length = 2 := by
        simpa using hlen
      refine dictUpsert_forall P m _ _ _ ?_ hm kv hkv
      intro k' v hk
      have hk' : k' = (cleanStateCode s, e.year) := by
        exact beq_iff_eq.mp hk
      subst hk'
      exact hP e s hlen2 v
  have hstates : ∀ (e : OutageEvent) (ss : List String)
      (m : List ((String × ℤ) × SYData)), (∀ kv ∈ m, P kv) →
      ∀ kv ∈ ss.foldl (fun acc s => stepEventState e acc s) m, P kv := by
    intro e ss
    induction ss with
    | nil => intro m hm; simpa using hm
    | cons s rest ih =>
      intro m hm
      simp only [List.foldl_cons]
      exact ih _ (hstep e m s hm)
  have hevents : ∀ (evs : List OutageEvent)
      (m : List ((String × ℤ) × SYData)), (∀ kv ∈ m, P kv) →
      ∀ kv ∈ evs.foldl
        (fun m e => (eventStates e).foldl (fun acc s => stepEventState e acc s) m) m, P kv := by
    intro evs
    induction evs with
    | nil => intro m hm; simpa using hm
    | cons e rest ih =>
      intro m hm
      simp only [List.foldl_cons]
      exact ih _ (hstates e (eventStates e) m hm)
  intro kv hkv
  exact hevents events [] (by simp) kv hkv

/-- Records of `aggregate_to_state_year`'s output arise from stored
partitions. -/
theorem aggregateToStateYear_mem {events : List OutageEvent}
    {l : List OutRec} (h : aggregateToStateYear events = some l) :
    ∀ r ∈ l, ∃ kv ∈ processOutageEvents events,
      convertEntry kv = some r := by
  rw [aggregateToStateYear] at h
  cases hca : convertAll (processOutageEvents events) with
  | none => rw [hca] at h; simp at h
  | some l0 =>
    rw [hca] at h
    simp at h
    intro r hr
    have hr0 : r ∈ l0 := by
      have hperm := List.perm_insertionSort (fun a b => outKeyLe a b = true) l0
      exact hperm.mem_iff.mp (h ▸ hr)
    exact convertAll_mem hca r hr0

theorem dedupAux_subset :
    ∀ (l seen : List String) (x : String), x ∈ dedupAux seen l → x ∈ l := by
  intro l
  induction l with
  | nil => intro seen x hx; simp [dedupAux] at hx
  | cons y ys ih =>
    intro seen x hx
    rw [dedupAux] at hx
    by_cases hy : seen.contains y = true
    · rw [if_pos hy] at hx
      exact List.mem_cons_of_mem _ (ih seen x hx)
    · rw [if_neg hy] at hx
      rcases List.mem_cons.mp hx with h | h
      · exact h ▸ List.mem_cons_self _ _
      · exact List.mem_cons_of_mem _ (ih (y :: seen) x h)

theorem groupByState_char (df : List URec) :
    ∀ sg ∈ groupByState df,
      (∃ r ∈ df, r.state = sg.1) ∧ sg.2 = df.filter (fun r => r.state == sg.1) := by
  intro sg hsg
  rcases List.mem_map.mp hsg with ⟨s, hs, heq⟩
  have hs' : s ∈ dedupKeep (df.map URec.state) :=
    (List.perm_insertionSort _ _).mem_iff.mp hs
  have hs2 : s ∈ df.map URec.state := dedupAux_subset _ [] s hs'
  rcases List.mem_map.mp hs2 with ⟨r, hr, hrs⟩
  subst heq
  exact ⟨⟨r, hr, hrs⟩, rfl⟩

theorem dictInsert_keys_mem {α : Type} (m : List (String × α)) (k : String)
    (v : α) (k' : String) :
    k' ∈ (dictInsert m k v).map Prod.fst ↔ k' ∈ m.map Prod.fst ∨ k' = k := by
  unfold dictInsert
  by_cases hf : (m.find? (fun kv => kv.1 == k)).isSome = true
  · rw [if_pos hf]
    have hkeys : (m.map (fun kv => if kv.1 == k then (k, v) else kv)).map Prod.fst
        = m.map Prod.fst := by
      rw [List.map_map]
      refine List.map_congr_left ?_
      intro kv _
      by_cases hk : (kv.1 == k) = true
      · simp [hk, beq_iff_eq.mp hk]
      · have hne : kv.1 ≠ k := fun he => hk (beq_iff_eq.mpr he)
        simp [hk, hne]
    rw [hkeys]
    constructor
    · exact Or.inl
    · rintro (h | h)
      · exact h
      · subst h
        rcases List.find?_isSome.mp hf with ⟨kv, hkv, hp⟩
        have : kv.1 = k' := beq_iff_eq.mp hp
        exact this ▸ List.mem_map.mpr ⟨kv, hkv, rfl⟩
  · rw [if_neg hf]
    simp

theorem colsLower_keys_mem (headers : List String) (k : String) :
    k ∈ (colsLower headers).map Prod.fst ↔ ∃ h ∈ headers, strLower h = k := by
  have hgen : ∀ (hs : List String) (m : List (String × String)),
      k ∈ (hs.foldl (fun m c => dictInsert m (strLower c) c) m).map Prod.fst ↔
        k ∈ m.map Prod.fst ∨ ∃ h ∈ hs, strLower h = k := by
    intro hs
    induction hs with
    | nil => intro m; simp
    | cons h0 rest ih =>
      intro m
      simp only [List.foldl_cons]
      rw [ih]
      rw [dictInsert_keys_mem]
      constructor
      · rintro ((h | h) | h)
        · exact Or.inl h
        · exact Or.inr ⟨h0, by simp, h.symm⟩
        · rcases h with ⟨h1, hh1, he⟩
          exact Or.inr ⟨h1, by simp [hh1], he⟩
      · rintro (h | ⟨h1, hh1, he⟩)
        · exact Or.inl (Or.inl h)
        · rcases List.mem_cons.mp hh1 with h2 | h2
          · exact Or.inl (Or.inr (by rw [← h2]; exact he.symm))
          · exact Or.inr ⟨h1, h2, he⟩
  rw [colsLower, hgen]
  simp

theorem colsLower_of_nodup (headers : List String)
    (hnd : (headers.map strLower).Nodup) :
    colsLower headers = headers.map (fun h => (strLower h, h)) := by
  have hgen : ∀ (hs : List String) (m : List (String × String)),
      (hs.map strLower).Nodup →
      (∀ h ∈ hs, strLower h ∉ m.map Prod.fst) →
      hs.foldl (fun m c => dictInsert m (strLower c) c) m =
        m ++ hs.map (fun h => (strLower h, h)) := by
    intro hs
    induction hs with
    | nil => intro m _ _; simp
    | cons h0 rest ih =>
      intro m hnd hfresh
      simp only [List.foldl_cons]
      have hfind : (m.find? (fun kv => kv.1 == strLower h0)) = none := by
        rw [List.find?_eq_none]
        intro kv hkv hp
        exact hfresh h0 (by simp)
          (List.mem_map.mpr ⟨kv, hkv, beq_iff_eq.mp hp⟩)
      have hins : dictInsert m (strLower h0) h0 = m ++ [(strLower h0, h0)] := by
        unfold dictInsert
        rw [hfind]
        simp
      rw [hins]
      rw [ih (m ++ [(strLower h0, h0)]) (by simpa using hnd.of_cons)]
      · simp
      · intro h hh
        simp only [List.map_append, List.mem_append]
        rintro (hin | hin)
        · exact hfresh h (by simp [hh]) hin
        · simp at hin
          rw [List.map_cons] at hnd
          have := hnd.not_mem
          exact this (hin ▸ List.mem_map.mpr ⟨h, hh, rfl⟩)
  rw [colsLower, hgen headers [] hnd (by simp)]
  simp


theorem primaryCauseOf_spec (w e d o : ℕ) :
    (primaryCauseOf w e d o = "weather" ↔ e ≤ w ∧ d ≤ w ∧ o ≤ w) ∧
    (primaryCauseOf w e d o = "equipment" ↔ w < e ∧ d ≤ e ∧ o ≤ e) ∧
    (primaryCauseOf w e d o = "demand" ↔ w < d ∧ e < d ∧ o ≤ d) ∧
    (primaryCauseOf w e d o = "other" ↔ w < o ∧ e < o ∧ d < o) := by
  simp only [primaryCauseOf]
  split_ifs <;> refine ⟨?_, ?_, ?_, ?_⟩ <;> simp_all <;> omega

/-- Claim C2: every state entry produced by `process_generation_data` has
`vrePenetration = round((wind + solar) / total * 100, 2)` when
`total > 0`, and `0` (with no division) when `total = 0`;
`windPenetration` and `solarPenetration` follow the same formula for
their single fuel. -/
theorem C2_vre_penetration_formula (gd : List (String × List GenRecord))
    (s : String) (g : StateGenOut) (hmem : (s, g) ∈ processGenerationData gd) :
    (0 < g.total →
      g.vrePenetration = pyRound ((g.wind + g.solar) / g.total * 100) 2 ∧
      g.windPenetration = pyRound (g.wind / g.total * 100) 2 ∧
      g.solarPenetration = pyRound (g.solar / g.total * 100) 2) ∧
    (g.total = 0 →
      g.vrePenetration = 0 ∧ g.windPenetration = 0 ∧ g.solarPenetration = 0) := by
  rcases List.mem_map.mp hmem with ⟨kv, _, heq⟩
  have hg : g = finalizeGen kv.2 := (congrArg Prod.snd heq).symm
  subst hg
  unfold finalizeGen
  by_cases ht : kv.2.total > 0
  · rw [if_pos ht]
    refine ⟨fun _ => ⟨rfl, rfl, rfl⟩, fun h0 => absurd h0 (ne_of_gt ht)⟩
  · rw [if_neg ht]
    exact ⟨fun hpos => absurd hpos ht, fun _ => ⟨rfl, rfl, rfl⟩⟩

/-- Witness for C2 at the spec's example: wind 30, solar 20, total 100
gives a `vrePenetration` of exactly `50`. -/
theorem C2_vre_penetration_formula_witness :
    gOutCA.vrePenetration = pyRound ((gOutCA.wind + gOutCA.solar) / gOutCA.total * 100) 2 ∧
    pyRound (((30 : ℚ) + 20) / 100 * 100) 2 = 50 ∧ gOutCA.vrePenetration = 50 := by
  have hmem : ("CA", gOutCA) ∈ processGenerationData gdCA := by
    with_unfolding_all decide
  refine ⟨((C2_vre_penetration_formula gdCA "CA" gOutCA hmem).1 ?_).1, ?_, ?_⟩
  · with_unfolding_all decide
  · with_unfolding_all decide
  · with_unfolding_all decide

/-- Claim C5: `primaryCause` of every state-year partition is the cause
category with the strictly greatest event count; ties go to the earliest
category in the fixed order weather > equipment > demand > other. -/
theorem C5_primary_cause_selection (events : List OutageEvent)
    (l : List OutRec) (r : OutRec)
    (hagg : aggregateToStateYear events = some l) (hr : r ∈ l) :
    (r.primaryCause = "weather" ↔
      r.equipmentEvents ≤ r.weatherEvents ∧ r.demandEvents ≤ r.weatherEvents ∧
      r.otherEvents ≤ r.weatherEvents) ∧
    (r.primaryCause = "equipment" ↔
      r.weatherEvents < r.equipmentEvents ∧ r.demandEvents ≤ r.equipmentEvents ∧
      r.otherEvents ≤ r.equipmentEvents) ∧
    (r.primaryCause = "demand" ↔
      r.weatherEvents < r.demandEvents ∧ r.equipmentEvents < r.demandEvents ∧
      r.otherEvents ≤ r.demandEvents) ∧
    (r.primaryCause = "other" ↔
      r.weatherEvents < r.otherEvents ∧ r.equipmentEvents < r.otherEvents ∧
      r.demandEvents < r.otherEvents) := by
  obtain ⟨kv, _, hconv⟩ := aggregateToStateYear_mem hagg r hr
  rw [convertEntry] at hconv
  by_cases hbad : ('-' ∈ kv.1.1.data) ∨ kv.1.2 < 0
  · rw [if_pos hbad] at hconv
    exact absurd hconv (by simp)
  · rw [if_neg hbad] at hconv
    injection hconv with h
    subst h
    exact primaryCauseOf_spec kv.2.weatherEvents kv.2.equipmentEvents
      kv.2.demandEvents kv.2.otherEvents

/-- Witness for C5: a partition with a single weather event has
`primaryCause = "weather"`. -/
theorem C5_primary_cause_selection_witness :
    outWeatherCA.primaryCause = "weather" := by
  have hagg : aggregateToStateYear [evWeatherCA] = some [outWeatherCA] := by
    with_unfolding_all decide
  exact ((C5_primary_cause_selection _ _ _ hagg (by simp)).1).mpr (by decide)

/-- Claim C9: outage partitions exist only with at least one contributing
event, so `totalEvents ≥ 1` on every emitted state-year record and the
`max(totalEvents, 1)` guard of the average-duration division is the
identity; likewise the state groups averaged by
`aggregate_to_state_level` are never empty. -/
theorem C9_no_empty_partitions :
    (∀ (events : List OutageEvent) (l : List OutRec) (r : OutRec),
      aggregateToStateYear events = some l → r ∈ l →
      1 ≤ r.totalEvents ∧ max r.totalEvents 1 = r.totalEvents) ∧
    (∀ (df : List URec), ∀ sg ∈ groupByState df, sg.2 ≠ []) := by
  constructor
  · intro events l r hagg hr
    obtain ⟨kv, hkv, hconv⟩ := aggregateToStateYear_mem hagg r hr
    have hinv : ∀ kv2 ∈ processOutageEvents events, 1 ≤ kv2.2.totalEvents := by
      refine processOutageEvents_forall (fun kv2 => 1 ≤ kv2.2.totalEvents) ?_ events
      intro e s _ d
      simp [syUpdate]
    have h1 : 1 ≤ kv.2.totalEvents := hinv kv hkv
    rw [convertEntry] at hconv
    by_cases hbad : ('-' ∈ kv.1.1.data) ∨ kv.1.2 < 0
    · rw [if_pos hbad] at hconv
      exact absurd hconv (by simp)
    · rw [if_neg hbad] at hconv
      injection hconv with h
      subst h
      exact ⟨h1, max_eq_left h1⟩
  · intro df sg hsg
    obtain ⟨⟨r, hr, hrs⟩, hfil⟩ := groupByState_char df sg hsg
    rw [hfil]
    exact List.ne_nil_of_mem (List.mem_filter.mpr ⟨hr, beq_iff_eq.mpr hrs⟩)

/-- Witness for C9 at concrete inputs: a one-event aggregation and a
one-utility grouping. -/
theorem C9_no_empty_partitions_witness :
    1 ≤ outWeatherCA.totalEvents ∧
    ∀ sg ∈ groupByState [uCA], sg.2 ≠ [] := by
  constructor
  · refine (C9_no_empty_partitions.1 [evWeatherCA] [outWeatherCA] outWeatherCA
      ?_ (by simp)).1
    with_unfolding_all decide
  · exact C9_no_empty_partitions.2 [uCA]

/-- Claim C10 (implicit): the list returned by `aggregate_to_state_year`
is sorted ascending by `(year, stateCode)` (lexicographic, Python string
order on the code) whenever the function returns at all. -/
theorem C10_output_sorted (events : List OutageEvent) (l : List OutRec)
    (hagg : aggregateToStateYear events = some l) :
    l.Pairwise (fun a b =>
      a.year < b.year ∨ (a.year = b.year ∧ strLe a.stateCode b.stateCode = true)) := by
  rw [aggregateToStateYear] at hagg
  cases hca : convertAll (processOutageEvents events) with
  | none => rw [hca] at hagg; simp at hagg
  | some l0 =>
    rw [hca] at hagg
    simp only [Option.map_some', Option.some.injEq] at hagg
    subst hagg
    have hs := List.sorted_insertionSort (fun a b => outKeyLe a b = true) l0
    exact hs.imp (fun hab => (outKeyLe_iff _ _).mp hab)

/-- Witness for C10: two events arriving in descending year order come
back out ascending by `(year, stateCode)`. -/
theorem C10_output_sorted_witness :
    List.Pairwise (fun a b : OutRec =>
      a.year < b.year ∨ (a.year = b.year ∧ strLe a.stateCode b.stateCode = true))
      [outOtherTX, outWeatherCA] := by
  refine C10_output_sorted [evWeatherCA, evOtherTX] _ ?_
  with_unfolding_all decide


theorem contains_iff_mem {l : List String} {a : String} :
    l.contains a = true ↔ a ∈ l := by
  rw [List.contains_iff_exists_mem_beq]
  constructor
  · rintro ⟨a', ha', hb⟩
    exact (beq_iff_eq.mp hb) ▸ ha'
  · intro h
    exact ⟨a, h, by simp⟩

/-- Claim C7: `process_rate_data` emits a record iff its `stateid` is in
the fixed 51-member state set, its price coerces with `float()` and
`0 < price ≤ 100`; the emitted price is `round(price, 2)`; a coercion
failure on `revenue` or `sales` (inside the shared `try` block) nulls
both fields without dropping the record. -/
theorem C7_retail_price_validation (records : List RawRateRec)
    (sector : String) (year : ℤ) :
    (∀ r : RawRateRec,
      (processOneRate sector year r).isSome = true ↔
        (r.stateid ∈ validStates ∧ ∃ p, r.price.coerce = some p ∧ 0 < p ∧ p ≤ 100)) ∧
    (∀ (r : RawRateRec) (out : ProcRate), processOneRate sector year r = some out →
      (∃ p, r.price.coerce = some p ∧ out.price = pyRound p 2) ∧
      (((r.revenue.truthy = true ∧ r.revenue.coerce = none) ∨
        (r.sales.truthy = true ∧ r.sales.coerce = none)) →
        out.revenue = none ∧ out.sales = none)) ∧
    (∀ out : ProcRate,
      out ∈ processRateData records sector year ↔
        ∃ r ∈ records, processOneRate sector year r = some out) := by
  refine ⟨?_, ?_, ?_⟩
  · intro r
    unfold processOneRate
    by_cases hst : validStates.contains r.stateid = true
    · have hmem : r.stateid ∈ validStates := contains_iff_mem.mp hst
      cases hc : r.price.coerce with
      | none => simp [hst, hc]
      | some p =>
        by_cases hrange : p ≤ 0 ∨ 100 < p
        · simp only [hst, Bool.not_true, Bool.false_eq_true, if_false, hc,
            if_pos hrange, Option.isSome_none]
          constructor
          · intro h
            exact absurd h (by simp)
          · rintro ⟨-, p', hp', h0, h100⟩
            injection hp' with hpp
            subst hpp
            rcases hrange with h | h
            · exact absurd h0 (not_lt.mpr h)
            · exact absurd h100 (not_le.mpr h)
        · simp only [hst, Bool.not_true, Bool.false_eq_true, if_false, hc,
            if_neg hrange, Option.isSome_some, true_iff]
          push_neg at hrange
          exact ⟨hmem, p, rfl, hrange.1, hrange.2⟩
    · have hmem : r.stateid ∉ validStates := fun h => hst (contains_iff_mem.mpr h)
      simp [hst, hmem]
  · intro r out hsome
    unfold processOneRate at hsome
    split at hsome
    · exact absurd hsome (by simp)
    · split at hsome
      · exact absurd hsome (by simp)
      · rename_i p hc
        split at hsome
        · exact absurd hsome (by simp)
        · injection hsome with hout
          subst hout
          refine ⟨⟨p, hc, rfl⟩, ?_⟩
          rintro (⟨hrt, hrc⟩ | ⟨hstt, hsc⟩)
          · simp [hrt, hrc, roundIfTruthy]
          · by_cases hrt2 : r.revenue.truthy = true
            · cases hrc2 : r.revenue.coerce <;>
                simp [hrt2, hrc2, hstt, hsc, roundIfTruthy]
            · simp [hrt2, hstt, hsc, roundIfTruthy]
  · intro out
    exact List.mem_filterMap

/-- Witness for C7: a valid record whose revenue string fails `float()`
is emitted with price rounded to 2 decimals and both revenue and sales
null. -/
theorem C7_retail_price_validation_witness :
    (processOneRate "RES" 2020 rrOK).isSome = true ∧
    outRR.price = pyRound (1234/100) 2 ∧
    outRR.revenue = none ∧ outRR.sales = none := by
  have h := C7_retail_price_validation [rrOK] "RES" 2020
  have hsome : processOneRate "RES" 2020 rrOK = some outRR := by
    with_unfolding_all decide
  have h2 := h.2.1 rrOK outRR hsome
  have hfail := h2.2 (Or.inl ⟨by decide, by decide⟩)
  refine ⟨?_, ?_, hfail.1, hfail.2⟩
  · refine (h.1 rrOK).mpr ⟨by decide, 1234/100, ?_, ?_, ?_⟩
    · with_unfolding_all decide
    · with_unfolding_all decide
    · with_unfolding_all decide
  · obtain ⟨p, hp, hpr⟩ := h2.1
    injection hp with h3
    subst h3
    exact hpr

/-- Counterexample to claim C3 as stated: the reliability record with
SAIDI `3.14` satisfies `0 < v < 10000` and is retained, but it carries
`3.14` unchanged, and `round(3.14, 1) = 3.1 ≠ 3.14` — so a retained
record does not in general carry `round(v, 1)`. -/
theorem C3_claim_counterexample :
    loadReliabilityFilter [relPi] = [relPi] ∧
    relPi.saidi = some (314/100) ∧
    pyRound (314/100) 1 ≠ (314/100 : ℚ) := by
  refine ⟨?_, ?_, ?_⟩ <;> with_unfolding_all decide

/-- Claim C3 (amended): `load_reliability_data` retains a record iff its
SAIDI is non-null with `0 < v < 10000`, carrying the record (and its
SAIDI value) unchanged — dropped, never clamped; the `round(v, 1)` of the
original claim is applied upstream, by `aggregate_to_state_level`, whose
every output SAIDI is a fixed point of rounding to 1 decimal (so on
pipeline-produced inputs the retained value does equal `round(v, 1)`). -/
theorem C3_saidi_range_validation :
    (∀ (l : List RelRec) (r : RelRec),
      r ∈ loadReliabilityFilter l ↔
        (r ∈ l ∧ ∃ v, r.saidi = some v ∧ 0 < v ∧ v < 10000)) ∧
    (∀ (rows : List URec) (a : StateAgg), a ∈ aggregateToStateLevel rows →
      a.saidi = pyRound a.saidi 1) := by
  constructor
  · intro l r
    rw [loadReliabilityFilter, List.mem_filter]
    constructor
    · rintro ⟨hmem, hp⟩
      refine ⟨hmem, ?_⟩
      cases hs : r.saidi with
      | none => rw [hs] at hp; simp at hp
      | some v =>
        rw [hs] at hp
        simp only [Bool.and_eq_true, decide_eq_true_eq] at hp
        exact ⟨v, rfl, hp.1, hp.2⟩
    · rintro ⟨hmem, v, hv, h0, h1⟩
      refine ⟨hmem, ?_⟩
      rw [hv]
      simp [h0, h1]
  · intro rows a ha
    rcases List.mem_map.mp ha with ⟨sg, _, heq⟩
    have hsa : a.saidi = pyRound (qmean (sg.2.map URec.saidi)) 1 := by
      rw [← heq]
    rw [hsa, pyRound_idem]

/-- Witness for the amended C3: an in-range record is retained, and a
concrete state aggregate's SAIDI is already 1-decimal. -/
theorem C3_saidi_range_validation_witness :
    relCA ∈ loadReliabilityFilter [relCA] ∧
    sAggPi.saidi = pyRound sAggPi.saidi 1 := by
  constructor
  · refine (C3_saidi_range_validation.1 [relCA] relCA).mpr ⟨by simp, 100, ?_, ?_, ?_⟩
    · with_unfolding_all decide
    · with_unfolding_all decide
    · with_unfolding_all decide
  · refine C3_saidi_range_validation.2 [uPi] sAggPi ?_
    have : aggregateToStateLevel [uPi] = [sAggPi] := by
      with_unfolding_all decide
    rw [this]
    simp

/-- Counterexample to claim C6 as stated: a partition made of the single
event with duration `2.25` hours reports `avgDurationHours = 2.2`, not
the unchanged value — the pipeline rounds the reduced value to 1 decimal. -/
theorem C6_claim_counterexample :
    aggregateToStateYear [evQuarter] = some [outQuarter] ∧
    evQuarter.durationHours = 9/4 ∧
    outQuarter.avgDurationHours ≠ evQuarter.durationHours := by
  refine ⟨?_, ?_, ?_⟩ <;> with_unfolding_all decide

/-- Claim C6 (amended): aggregating a single-record partition reproduces
that record's values up to the pipeline's output rounding: the sum and
count reducers return the value exactly (`totalEvents = 1`,
`totalCustomersAffected` unchanged), the running max is additionally
floored at its `0` initial value, the average equals `round(duration, 1)`,
and the one-utility state aggregate carries `round(saidi, 1)` /
`round(saifi, 2)` with the utility's count and customers. -/
theorem C6_single_record_aggregation :
    (∀ (e : OutageEvent) (s : String),
      e.states = [s] →
      (cleanStateCode s).data.length = 2 →
      '-' ∉ (cleanStateCode s).data →
      0 ≤ e.year →
      ∃ r : OutRec, aggregateToStateYear [e] = some [r] ∧
        r.stateCode = cleanStateCode s ∧ r.year = e.year ∧
        r.totalEvents = 1 ∧
        r.totalCustomersAffected = e.customersAffected ∧
        r.maxEventCustomers = max 0 e.customersAffected ∧
        r.avgDurationHours = pyRound e.durationHours 1) ∧
    (∀ u : URec,
      aggregateToStateLevel [u] = [{
        state := u.state,
        saidi := pyRound u.saidi 1,
        saifi := u.saifi.map (fun v => pyRound v 2),
        saidi_with_med := u.saidi_with_med.map (fun v => pyRound v 1),
        saifi_with_med := u.saifi_with_med.map (fun v => pyRound v 2),
        utility_count := 1,
        total_customers := u.customers.getD 0 }]) := by
  constructor
  · intro e s hstates hlen hdash hyear
    have hne : e.states.isEmpty = false := by
      rw [hstates]
      rfl
    have hstep : processOutageEvents [e] =
        [((cleanStateCode s, e.year),
          syUpdate e.causeCategory e.customersAffected e.durationHours {})] := by
      have hlen' : (cleanStateCode s).length = 2 := hlen
      simp [processOutageEvents, eventStates, hne, hstates, stepEventState,
        hlen, hlen', dictUpsert]
    have hconv : convertEntry ((cleanStateCode s, e.year),
        syUpdate e.causeCategory e.customersAffected e.durationHours {}) =
        some (mkOutRec (cleanStateCode s) e.year
          (syUpdate e.causeCategory e.customersAffected e.durationHours {})) := by
      rw [convertEntry, if_neg]
      simp only [not_or]
      exact ⟨hdash, not_lt.mpr hyear⟩
    refine ⟨mkOutRec (cleanStateCode s) e.year
      (syUpdate e.causeCategory e.customersAffected e.durationHours {}),
      ?_, rfl, rfl, ?_, ?_, ?_, ?_⟩
    · rw [aggregateToStateYear, hstep, convertAll, hconv, convertAll]
      simp [List.insertionSort, List.orderedInsert]
    · simp [mkOutRec, syUpdate]
    · simp [mkOutRec, syUpdate]
    · simp [mkOutRec, syUpdate]
    · simp [mkOutRec, syUpdate]
  · intro u
    cases hc : u.customers <;> cases h1 : u.saifi <;>
      cases h2 : u.saidi_with_med <;> cases h3 : u.saifi_with_med <;>
      simp [aggregateToStateLevel, groupByState, dedupKeep, dedupAux, qmean,
        optMean, optSum, List.insertionSort, List.orderedInsert, hc, h1, h2, h3]

/-- Witness for the amended C6: the single weather event and the single
utility `uPi` (SAIDI `3.14`, SAIFI `1.25`). -/
theorem C6_single_record_aggregation_witness :
    aggregateToStateYear [evWeatherCA] = some [outWeatherCA] ∧
    outWeatherCA.avgDurationHours = pyRound evWeatherCA.durationHours 1 ∧
    aggregateToStateLevel [uPi] = [sAggPi] := by
  obtain ⟨r, hr, _, _, _, _, _, ha⟩ :=
    C6_single_record_aggregation.1 evWeatherCA "CA" (by decide) (by decide)
      (by decide) (by decide)
  have hagg : aggregateToStateYear [evWeatherCA] = some [outWeatherCA] := by
    with_unfolding_all decide
  have hro : r = outWeatherCA := by
    have h2 := hr.symm.trans hagg
    injection h2 with h3
    injection h3
  refine ⟨hagg, ?_, ?_⟩
  · rw [← hro]
    exact ha
  · rw [C6_single_record_aggregation.2 uPi]
    with_unfolding_all decide

theorem combineOne_some_char (relBy : List (String × RelRec))
    (ratesBy : List (String × List (String × ℚ))) (year : ℤ)
    (kv : String × StateGenOut) (p : ChartPoint)
    (h : combineOne relBy ratesBy year kv = some p) :
    p.stateCode = kv.1 ∧ p.year = year ∧
    (dictFind stateInfo kv.1).isSome = true ∧
    p.saidi = (dictFind relBy kv.1).bind RelRec.saidi ∧
    p.saifi = (dictFind relBy kv.1).bind RelRec.saifi ∧
    p.rateResidential = dictFind ((dictFind ratesBy kv.1).getD []) "RES" ∧
    p.rateCommercial = dictFind ((dictFind ratesBy kv.1).getD []) "COM" ∧
    p.rateIndustrial = dictFind ((dictFind ratesBy kv.1).getD []) "IND" ∧
    p.rateAll = dictFind ((dictFind ratesBy kv.1).getD []) "ALL" ∧
    ((dictFind relBy kv.1).bind RelRec.saidi ≠ none ∨
     (dictFind ratesBy kv.1).getD [] ≠ []) := by
  unfold combineOne at h
  split at h
  · exact absurd h (by simp)
  · rename_i nr heq
    split at h
    · exact absurd h (by simp)
    · rename_i hcond
      injection h with hp
      subst hp
      refine ⟨rfl, rfl, by rw [heq]; rfl, rfl, rfl, rfl, rfl, rfl, rfl, ?_⟩
      by_cases hsa : (dictFind relBy kv.1).bind RelRec.saidi = none
      · right
        intro hrl
        exact hcond (by simp [hsa, hrl])
      · left
        exact hsa

theorem combineOne_emits (relBy : List (String × RelRec))
    (ratesBy : List (String × List (String × ℚ))) (year : ℤ)
    (kv : String × StateGenOut)
    (hfind : (dictFind stateInfo kv.1).isSome = true)
    (hcond : (dictFind relBy kv.1).bind RelRec.saidi ≠ none ∨
      (dictFind ratesBy kv.1).getD [] ≠ []) :
    (combineOne relBy ratesBy year kv).isSome = true := by
  unfold combineOne
  split
  · rename_i heq
    rw [heq] at hfind
    simp at hfind
  · rename_i nr heq
    rw [if_neg]
    · simp
    · rcases hcond with h | h
      · cases hsa : (dictFind relBy kv.1).bind RelRec.saidi with
        | none => exact absurd hsa h
        | some v => simp [hsa]
      · have hie : ((dictFind ratesBy kv.1).getD []).isEmpty = false := by
          cases hge : (dictFind ratesBy kv.1).getD [] with
          | nil => exact absurd hge h
          | cons a l => rfl
        simp [hie]

theorem stateInfo_keys_valid : ∀ kv ∈ stateInfo, kv.1 ∈ validStates := by decide

theorem dictFind_stateInfo_valid (s : String)
    (h : (dictFind stateInfo s).isSome = true) : s ∈ validStates := by
  rw [dictFind] at h
  have h2 : (stateInfo.find? (fun kv => kv.1 == s)).isSome = true := by
    cases hf : stateInfo.find? (fun kv => kv.1 == s) with
    | none => rw [hf] at h; simp at h
    | some kv => rfl
  obtain ⟨kv, hkv, hb⟩ := List.find?_isSome.mp h2
  exact (beq_iff_eq.mp hb) ▸ stateInfo_keys_valid kv hkv

theorem extractFilter_state_valid (rows : List URecRaw) :
    ∀ u ∈ extractFilter rows, u.state ∈ validStates := by
  intro u hu
  rcases List.mem_filterMap.mp hu with ⟨r, _, hr⟩
  split at hr
  · rename_i hcont
    split at hr
    · rename_i i v hi hv
      injection hr with hu2
      subst hu2
      exact contains_iff_mem.mp hcont
    · exact absurd hr (by simp)
  · exact absurd hr (by simp)

/-- Counterexample to claim C8 as stated: a national outage event (empty
state list) produces a state-year summary with `stateCode = "US"`, which
is not in the 51-member state set. -/
theorem C8_claim_counterexample :
    aggregateToStateYear [evUS] = some [outUS] ∧
    outUS.stateCode = "US" ∧ "US" ∉ validStates := by
  refine ⟨?_, ?_, ?_⟩
  · with_unfolding_all decide
  · with_unfolding_all decide
  · decide

/-- Claim C8 (amended): combined chart points, the utility rows surviving
`extract_utility_reliability`, and the state-level reliability aggregates
built from them carry a `stateCode` in the fixed 51-member set; outage
state-year summaries guarantee only a 2-character cleaned code — national
events are keyed `"US"`, which is outside the set. -/
theorem C8_state_code_invariant :
    (∀ (gd : List (String × List GenRecord)) (rel : List RelRec)
       (rateData : Option (List RateRec)) (year : ℤ),
      ∀ p ∈ combinePointsForYear gd rel rateData year,
        p.stateCode ∈ validStates) ∧
    (∀ rows : List URecRaw, ∀ u ∈ extractFilter rows,
      u.state ∈ validStates) ∧
    (∀ rows : List URecRaw, ∀ a ∈ aggregateToStateLevel (extractFilter rows),
      a.state ∈ validStates) ∧
    (∀ (events : List OutageEvent) (l : List OutRec) (r : OutRec),
      aggregateToStateYear events = some l → r ∈ l →
      r.stateCode.data.length = 2) := by
  refine ⟨?_, extractFilter_state_valid, ?_, ?_⟩
  · intro gd rel rateData year p hp
    rcases List.mem_filterMap.mp hp with ⟨kv, _, hcomb⟩
    obtain ⟨hsc, _, hfind, _⟩ := combineOne_some_char _ _ _ _ _ hcomb
    rw [hsc]
    exact dictFind_stateInfo_valid kv.1 hfind
  · intro rows a ha
    rcases List.mem_map.mp ha with ⟨sg, hsg, heq⟩
    obtain ⟨⟨r, hr, hrs⟩, _⟩ := groupByState_char _ sg hsg
    have hst : a.state = sg.1 := by rw [← heq]
    rw [hst, ← hrs]
    exact extractFilter_state_valid rows r hr
  · intro events l r hagg hr
    obtain ⟨kv, hkv, hconv⟩ := aggregateToStateYear_mem hagg r hr
    have hinv : ∀ kv2 ∈ processOutageEvents events, kv2.1.1.data.length = 2 := by
      refine processOutageEvents_forall (fun kv2 => kv2.1.1.data.length = 2) ?_ events
      intro e s hlen d
      exact hlen
    have h2 := hinv kv hkv
    rw [convertEntry] at hconv
    by_cases hbad : ('-' ∈ kv.1.1.data) ∨ kv.1.2 < 0
    · rw [if_pos hbad] at hconv
      exact absurd hconv (by simp)
    · rw [if_neg hbad] at hconv
      injection hconv with h3
      subst h3
      exact h2

/-- Witness for the amended C8 at concrete inputs: a combined point, a
filtered utility row, and the `"US"` summary's 2-character code. -/
theorem C8_state_code_invariant_witness :
    pointCA.stateCode ∈ validStates ∧
    uCA.state ∈ validStates ∧
    outUS.stateCode.data.length = 2 := by
  refine ⟨?_, ?_, ?_⟩
  · refine C8_state_code_invariant.1 gdCA [relCA] none 2020 pointCA ?_
    have : combinePointsForYear gdCA [relCA] none 2020 = [pointCA] := by
      with_unfolding_all decide
    rw [this]
    simp
  · refine C8_state_code_invariant.2.1 [rawU] uCA ?_
    have : extractFilter [rawU] = [uCA] := by
      with_unfolding_all decide
    rw [this]
    simp
  · refine C8_state_code_invariant.2.2.2 [evUS] [outUS] outUS ?_ (by simp)
    with_unfolding_all decide

/-- Counterexample to claim C4 as stated: with headers `["SAIDI", "saidi"]`
(distinct spellings, equal after lowercasing) and pattern `["saidi"]`, the
resolver returns `"saidi"` — the *later* header's spelling — while the
claimed tie-break (first matching header in source order, as
`findColumnSpec` renders it) demands `"SAIDI"`: the dict comprehension
`{c.lower(): c}` collapses case-colliding headers, keeping the last
original. -/
theorem C4_claim_counterexample :
    findColumn ["SAIDI", "saidi"] ["saidi"] = some "saidi" ∧
    findColumnSpec ["SAIDI", "saidi"] ["saidi"] = some "SAIDI" ∧
    ("saidi" : String) ≠ "SAIDI" := by
  refine ⟨?_, ?_, ?_⟩ <;> decide

/-- Claim C4 (amended): `find_column` tries the patterns in order and a
pattern is matched literally against the lowered headers (with `-`/`_`
replaced by spaces) — `None` is returned iff no pattern matches any
lowered header; when the lowered headers are pairwise distinct the code
agrees with the claimed tie-break (first pattern that matches wins, ties
within a pattern go to the first header in source order, rendered by
`findColumnSpec`); the spec's example headers resolve to
`"SAIDI Without Major Event Days"`. -/
theorem C4_column_resolver_priority :
    (∀ (headers patterns : List String),
      findColumn headers patterns = none ↔
        ∀ p ∈ patterns, ∀ h ∈ headers, patMatches p (strLower h) = false) ∧
    (∀ (headers patterns : List String),
      (headers.map strLower).Nodup →
      findColumn headers patterns = findColumnSpec headers patterns) ∧
    findColumn ["SAIDI", "SAIDI Without Major Event Days"]
      ["saidi without", "saidi"] = some "SAIDI Without Major Event Days" := by
  refine ⟨?_, ?_, by decide⟩
  · intro headers patterns
    induction patterns with
    | nil => simp [findColumn]
    | cons p ps ih =>
      rw [findColumn]
      cases hf : (colsLower headers).find? (fun kv => patMatches p kv.1) with
      | some kv =>
        simp only [hf]
        constructor
        · intro h
          exact absurd h (by simp)
        · intro hall
          exfalso
          have hkv := List.mem_of_find?_eq_some hf
          have hpm := List.find?_some hf
          have hkey : kv.1 ∈ (colsLower headers).map Prod.fst :=
            List.mem_map.mpr ⟨kv, hkv, rfl⟩
          obtain ⟨h0, hh0, hl0⟩ := (colsLower_keys_mem headers kv.1).mp hkey
          have hfalse := hall p (by simp) h0 hh0
          rw [hl0] at hfalse
          rw [hfalse] at hpm
          exact Bool.false_ne_true hpm
      | none =>
        simp only [hf]
        rw [ih]
        constructor
        · intro hall p' hp' h hh
          rcases List.mem_cons.mp hp' with h1 | h1
          · subst h1
            have hnone := List.find?_eq_none.mp hf
            have hkey : strLower h ∈ (colsLower headers).map Prod.fst :=
              (colsLower_keys_mem headers (strLower h)).mpr ⟨h, hh, rfl⟩
            rcases List.mem_map.mp hkey with ⟨kv, hkv, hkveq⟩
            have h2 := hnone kv hkv
            rw [hkveq] at h2
            simpa using h2
          · exact hall p' h1 h hh
        · intro hall p' hp' h hh
          exact hall p' (List.mem_cons_of_mem _ hp') h hh
  · intro headers patterns hnd
    have hcl : colsLower headers = headers.map (fun h => (strLower h, h)) :=
      colsLower_of_nodup headers hnd
    induction patterns with
    | nil => simp [findColumn, findColumnSpec]
    | cons p ps ih =>
      rw [findColumn, findColumnSpec, hcl, List.find?_map]
      have hfun : ((fun (kv : String × String) => patMatches p kv.1) ∘
          fun h => (strLower h, h)) = fun h => patMatches p (strLower h) := rfl
      rw [hfun]
      cases hfh : headers.find? (fun h => patMatches p (strLower h)) with
      | some h0 => simp [hfh]
      | none => simp [hfh, ih]

/-- Witness for the amended C4: a header set with distinct lowered forms
resolves like the spec's tie-break, and a pattern list matching nothing
returns `None`. -/
theorem C4_column_resolver_priority_witness :
    ((["Utility_Name", "State"].map strLower).Nodup ∧
      findColumn ["Utility_Name", "State"] ["utility name"] =
        findColumnSpec ["Utility_Name", "State"] ["utility name"]) ∧
    findColumn ["SAIDI"] ["ownership"] = none := by
  refine ⟨⟨by decide, C4_column_resolver_priority.2.1 _ _ (by decide)⟩, ?_⟩
  refine (C4_column_resolver_priority.1 ["SAIDI"] ["ownership"]).mpr ?_
  decide

/-- Counterexample to claim C1 as stated: for year 2020 the key
`("CA", 2020)` is present in the reliability dataset with a non-null
SAIDI and `"CA"` resolves in the state-info table, yet with no generation
entry for `"CA"` the combine stage emits no point at all — the loop
iterates generation states only. -/
theorem C1_claim_counterexample :
    (dictFind stateInfo "CA").isSome = true ∧
    (dictFind (relDict [relCA]) "CA").bind RelRec.saidi = some 100 ∧
    combinePointsForYear [] [relCA] none 2020 = [] := by
  refine ⟨?_, ?_, ?_⟩ <;> with_unfolding_all decide

/-- Claim C1 (amended): the combine stage emits a point for state `s` and
the year iff `s` has a processed generation entry, resolves in
`STATE_INFO`, and at least one of SAIDI or a rate value is present for
`s`; a dataset lacking the key contributes `null` fields (reliability →
`saidi`/`saifi` null; rates → all four rate fields null) rather than
suppressing the point. -/
theorem C1_join_completeness (gd : List (String × List GenRecord))
    (rel : List RelRec) (rateData : Option (List RateRec)) (year : ℤ) :
    (∀ s : String,
      (∃ p ∈ combinePointsForYear gd rel rateData year, p.stateCode = s) ↔
        ((∃ g, (s, g) ∈ processGenerationData gd) ∧
         (dictFind stateInfo s).isSome = true ∧
         ((dictFind (relDict rel) s).bind RelRec.saidi ≠ none ∨
          (dictFind (ratesOf rateData) s).getD [] ≠ []))) ∧
    (∀ p ∈ combinePointsForYear gd rel rateData year,
      p.year = year ∧
      (dictFind (relDict rel) p.stateCode = none →
        p.saidi = none ∧ p.saifi = none) ∧
      ((dictFind (ratesOf rateData) p.stateCode).getD [] = [] →
        p.rateResidential = none ∧ p.rateCommercial = none ∧
        p.rateIndustrial = none ∧ p.rateAll = none)) := by
  constructor
  · intro s
    constructor
    · rintro ⟨p, hp, hps⟩
      rcases List.mem_filterMap.mp hp with ⟨kv, hkv, hcomb⟩
      obtain ⟨hsc, _, hfind, _, _, _, _, _, _, hcond⟩ :=
        combineOne_some_char _ _ _ _ _ hcomb
      have hks : kv.1 = s := by rw [← hps, hsc]
      subst hks
      exact ⟨⟨kv.2, hkv⟩, hfind, hcond⟩
    · rintro ⟨⟨g, hg⟩, hfind, hcond⟩
      have hemit := combineOne_emits (relDict rel) (ratesOf rateData) year
        (s, g) hfind hcond
      obtain ⟨p, hp⟩ := Option.isSome_iff_exists.mp hemit
      refine ⟨p, List.mem_filterMap.mpr ⟨(s, g), hg, hp⟩, ?_⟩
      exact (combineOne_some_char _ _ _ _ _ hp).1
  · intro p hp
    rcases List.mem_filterMap.mp hp with ⟨kv, hkv, hcomb⟩
    obtain ⟨hsc, hy, _, hsa, hsf, hr1, hr2, hr3, hr4, _⟩ :=
      combineOne_some_char _ _ _ _ _ hcomb
    refine ⟨hy, ?_, ?_⟩
    · intro hrel
      rw [hsc] at hrel
      refine ⟨?_, ?_⟩
      · rw [hsa, hrel]
        rfl
      · rw [hsf, hrel]
        rfl
    · intro hrates
      rw [hsc] at hrates
      refine ⟨?_, ?_, ?_, ?_⟩
      · rw [hr1, hrates]
        rfl
      · rw [hr2, hrates]
        rfl
      · rw [hr3, hrates]
        rfl
      · rw [hr4, hrates]
        rfl

/-- Witness for the amended C1: California has generation and reliability
data but no rates file, and its point is emitted with every rate field
null and SAIDI joined. -/
theorem C1_join_completeness_witness :
    pointCA ∈ combinePointsForYear gdCA [relCA] none 2020 ∧
    pointCA.saidi = some 100 ∧
    pointCA.rateResidential = none ∧ pointCA.rateAll = none := by
  have hmem : pointCA ∈ combinePointsForYear gdCA [relCA] none 2020 := by
    have h : combinePointsForYear gdCA [relCA] none 2020 = [pointCA] := by
      with_unfolding_all decide
    rw [h]
    simp
  have h2 := (C1_join_completeness gdCA [relCA] none 2020).2 pointCA hmem
  have hrates := h2.2.2 (by with_unfolding_all decide)
  exact ⟨hmem, by with_unfolding_all decide, hrates.1, hrates.2.2.2⟩
